import Mathlib

/-!
Verification development for the autocomment repository: a reconciliation
pipeline that extracts an issue-tracker reference from a pull-request
description, checks for an existing comment, and posts a structured comment.

The definitions below are a shallow embedding of the Rust sources
(src/lib.rs, src/github.rs, src/jira.rs). Machine strings are modelled as
Lean `String`s (lists of characters); fallible operations return `Except`.
-/

/-! ## Character classes used by the extractor regex

The extractor (jira.rs, `parse_jira_ticket_number`) builds the regex
`\[(\w+\-\d+)\]\(https://DOMAIN\S+\)` where DOMAIN is the tracker domain
with dots escaped. We embed the character classes at the ASCII level:
`\w` is [0-9A-Za-z_], `\d` is [0-9], `\S` is a non-whitespace character. -/

def isWordChar (c : Char) : Bool := c.isAlphanum || c = '_'

def isSpaceCh (c : Char) : Bool :=
  c = ' ' || c = '\t' || c = '\n' || c = '\r' || c = '\x0b' || c = '\x0c'

def isNotSpace (c : Char) : Bool := !(isSpaceCh c)

/-- The literal characters of the scheme part of the link pattern. -/
def httpsList : List Char := ['h', 't', 't', 'p', 's', ':', '/', '/']

/-- Consume an expected literal character at the head of the input. -/
def expectChar (c : Char) : List Char → Option (List Char)
  | [] => none
  | x :: xs => if x = c then some xs else none

/-- Consume a non-empty greedy run of characters satisfying `p`
(the embedding of a `+`-quantified character class whose class is
disjoint from the character that follows it in the pattern). -/
def takeSome (p : Char → Bool) (s : List Char) : Option (List Char × List Char) :=
  if s.takeWhile p = [] then none else some (s.takeWhile p, s.dropWhile p)

/-- Consume an expected literal character sequence at the head of the input. -/
def stripPfx : List Char → List Char → Option (List Char)
  | [], s => some s
  | _ :: _, [] => none
  | p :: ps, c :: cs => if c = p then stripPfx ps cs else none

/-- Attempt to match the pattern `\[(\w+\-\d+)\]\(https://DOMAIN\S+\)` at the
start of `s`, returning the capture group `\w+\-\d+` on success.

The `\w+` run is deterministic because `-` is not a word character, and the
`\d+` run because `]` is not a digit. The trailing `\S+\)` succeeds exactly
when the maximal non-space run after the domain contains a close paren at
index one or later: any close paren inside that run is a valid greedy
backtracking endpoint, and one past it would cross a space. -/
def matchTicketAt (domain : List Char) (s : List Char) : Option (List Char) :=
  match expectChar '[' s with
  | none => none
  | some rest =>
    match takeSome isWordChar rest with
    | none => none
    | some (w, r1) =>
      match expectChar '-' r1 with
      | none => none
      | some r2 =>
        match takeSome Char.isDigit r2 with
        | none => none
        | some (ds, r3) =>
          match expectChar ']' r3 with
          | none => none
          | some r3a =>
            match expectChar '(' r3a with
            | none => none
            | some r4 =>
              match stripPfx (httpsList ++ domain) r4 with
              | none => none
              | some r5 =>
                if ((r5.takeWhile isNotSpace).drop 1).any (fun c => c = ')')
                then some (w ++ '-' :: ds)
                else none

/-- Scan left to right over every start position, returning the capture of
the leftmost match (the regex engine's leftmost-match rule; the source keeps
only the first element of `captures_iter`). -/
def findFirstTicket (domain : List Char) : List Char → Option (List Char)
  | [] => none
  | c :: cs =>
    match matchTicketAt domain (c :: cs) with
    | some cap => some cap
    | none => findFirstTicket domain cs

/-- Embedding of `parse_jira_ticket_number` (jira.rs lines 166-173). The
source escapes the dots of the domain before interpolating it into the
pattern, so the domain is matched as literal text; the embedding matches it
literally, which coincides with the source whenever the domain contains no
regex metacharacter other than the dot (see `validDomain`). -/
def parse_jira_ticket_number (pr_body : String) (domain : String) : Option String :=
  (findFirstTicket domain.data pr_body.data).map (fun cs => String.mk cs)

/-- Domains on which the dot-escaping performed by the source makes the
interpolated domain a literal: every character is alphanumeric, a dot, a
hyphen or an underscore. -/
def validDomain (domain : String) : Bool :=
  domain.data.all (fun c => c.isAlphanum || c = '.' || c = '-' || c = '_')

/-! ## Jira comment data model (jira.rs) -/

/-- Embedding of `JiraComment` (jira.rs lines 22-26). -/
structure JiraComment where
  rendered_body : String
deriving DecidableEq, Repr

/-- Embedding of `JiraCommentResponse` (jira.rs lines 10-14); `total` is an
`i32` in the source, modelled as `Int`. -/
structure JiraCommentResponse where
  total : Int
  comments : List JiraComment
deriving DecidableEq, Repr

/-- Embedding of `str::contains` on strings: `needle` occurs as a contiguous
substring of the haystack (case-sensitive, exact). -/
def containsSeq (needle : List Char) : List Char → Bool
  | [] => decide (needle = [])
  | c :: cs => List.isPrefixOf needle (c :: cs) || containsSeq needle cs

/-- Embedding of `JiraCommentResponse::contains_text` (jira.rs lines 16-20):
true when some comment's rendered body contains `text` as a substring. -/
def JiraCommentResponse.contains_text (resp : JiraCommentResponse) (text : String) : Bool :=
  resp.comments.any (fun comment => containsSeq text.data comment.rendered_body.data)

/-- Embedding of `JiraCommentAttrs` (jira.rs lines 54-58). -/
structure JiraCommentAttrs where
  href : Option String
deriving DecidableEq, Repr

/-- Embedding of `JiraCommentElement` (jira.rs lines 33-52): one node of the
nested comment document. Field order matters for serialization and matches
the struct declaration order: version, type, content, text, marks, attrs. -/
inductive JiraCommentElement where
  | mk (version : Option Nat) (comment_type : String)
      (content : List JiraCommentElement) (text : Option String)
      (marks : List JiraCommentElement) (attrs : Option JiraCommentAttrs)

def JiraCommentElement.version : JiraCommentElement → Option Nat
  | JiraCommentElement.mk v _ _ _ _ _ => v

def JiraCommentElement.comment_type : JiraCommentElement → String
  | JiraCommentElement.mk _ t _ _ _ _ => t

def JiraCommentElement.content : JiraCommentElement → List JiraCommentElement
  | JiraCommentElement.mk _ _ c _ _ _ => c

def JiraCommentElement.text : JiraCommentElement → Option String
  | JiraCommentElement.mk _ _ _ tx _ _ => tx

def JiraCommentElement.marks : JiraCommentElement → List JiraCommentElement
  | JiraCommentElement.mk _ _ _ _ m _ => m

def JiraCommentElement.attrs : JiraCommentElement → Option JiraCommentAttrs
  | JiraCommentElement.mk _ _ _ _ _ a => a

/-- Embedding of `JiraCommentRequest` (jira.rs lines 28-31). -/
structure JiraCommentRequest where
  body : JiraCommentElement

/-! ## Serialization (the serde derive on the structs above)

serde_json serializes struct fields in declaration order, renames
`comment_type` to `type`, skips `version`, `text` and `attrs` when absent
and `content` and `marks` when empty, and skips `href` when absent. -/

/-- One hexadecimal digit, for the JSON control-character escape. -/
def hexDigit (n : Nat) : Char :=
  if n < 10 then Char.ofNat (48 + n) else Char.ofNat (87 + n)

/-- JSON string escaping as serde_json performs it: quote and backslash are
escaped, the named control characters use their short escapes, the remaining
control characters use a four-digit unicode escape. -/
def escapeJsonChar (c : Char) : List Char :=
  if c = '"' then ['\\', '"']
  else if c = '\\' then ['\\', '\\']
  else if c = '\x08' then ['\\', 'b']
  else if c = '\t' then ['\\', 't']
  else if c = '\n' then ['\\', 'n']
  else if c = '\x0c' then ['\\', 'f']
  else if c = '\r' then ['\\', 'r']
  else if c.toNat < 32 then ['\\', 'u', '0', '0', hexDigit (c.toNat / 16), hexDigit (c.toNat % 16)]
  else [c]

def escapeJsonString (s : String) : String :=
  String.mk (s.data.map escapeJsonChar).flatten

def serializeAttrs (attrs : JiraCommentAttrs) : String :=
  match attrs.href with
  | some h => "\x7b\"href\":\"" ++ escapeJsonString h ++ "\"\x7d"
  | none => "\x7b\x7d"

mutual

/-- JSON serialization of one comment node, following serde_json on the
source struct: fields in declaration order, optional fields omitted when
`None`, list fields omitted when empty, `comment_type` renamed to `type`. -/
def serializeElement : JiraCommentElement → String
  | JiraCommentElement.mk version ctype content text marks attrs =>
    "\x7b" ++ String.intercalate "," (
      (match version with
       | some v => ["\"version\":" ++ toString v]
       | none => []) ++
      ["\"type\":\"" ++ escapeJsonString ctype ++ "\""] ++
      (match content with
       | [] => []
       | _ :: _ => ["\"content\":[" ++ String.intercalate "," (serializeElements content) ++ "]"]) ++
      (match text with
       | some t => ["\"text\":\"" ++ escapeJsonString t ++ "\""]
       | none => []) ++
      (match marks with
       | [] => []
       | _ :: _ => ["\"marks\":[" ++ String.intercalate "," (serializeElements marks) ++ "]"]) ++
      (match attrs with
       | some a => ["\"attrs\":" ++ serializeAttrs a]
       | none => [])) ++ "\x7d"

def serializeElements : List JiraCommentElement → List String
  | [] => []
  | e :: es => serializeElement e :: serializeElements es

end

/-- JSON serialization of a whole comment request: an object with the single
key `body` holding the document root. -/
def serializeRequest (req : JiraCommentRequest) : String :=
  "\x7b\"body\":" ++ serializeElement req.body ++ "\x7d"

/-! ## Builder helpers

The sources call `JiraCommentRequest::new`, `JiraCommentElement::new` and
the `with_*` setters (github.rs lines 28-61), whose definitions are not in
the repository snapshot; they are modelled here from the spec. -/

/-- Modelled from the spec: the element constructor `JiraCommentElement::new`
is absent from the snapshot. Per the data-model invariant (spec section 3),
a fresh node carries only its kind tag; every other field is empty. -/
def JiraCommentElement.new (comment_type : String) : JiraCommentElement :=
  JiraCommentElement.mk none comment_type [] none [] none

/-- Modelled from the spec: the setter `with_content` is absent from the
snapshot; it replaces the node's ordered sequence of children. -/
def JiraCommentElement.with_content : JiraCommentElement → List JiraCommentElement → JiraCommentElement
  | JiraCommentElement.mk v t _ tx m a, c => JiraCommentElement.mk v t c tx m a

/-- Modelled from the spec: the setter `with_text` is absent from the
snapshot; it replaces the node's literal text content. -/
def JiraCommentElement.with_text : JiraCommentElement → String → JiraCommentElement
  | JiraCommentElement.mk v t c _ m a, tx => JiraCommentElement.mk v t c (some tx) m a

/-- Modelled from the spec: the setter `with_marks` is absent from the
snapshot; it replaces the node's ordered sequence of marks. -/
def JiraCommentElement.with_marks : JiraCommentElement → List JiraCommentElement → JiraCommentElement
  | JiraCommentElement.mk v t c tx _ a, m => JiraCommentElement.mk v t c tx m a

/-- Modelled from the spec: the setter `with_attrs` is absent from the
snapshot; it replaces the node's attributes. -/
def JiraCommentElement.with_attrs : JiraCommentElement → JiraCommentAttrs → JiraCommentElement
  | JiraCommentElement.mk v t c tx m _, a => JiraCommentElement.mk v t c tx m (some a)

/-- Modelled from the spec: the request constructor `JiraCommentRequest::new`
is absent from the snapshot. Per spec section 4.2 the document root wraps
its paragraphs with schema version 1, and only the root carries the version
(spec section 3); this matches the in-repository `JiraCommentElement.doc`
constructor (jira.rs lines 61-70). -/
def JiraCommentRequest.new : JiraCommentRequest :=
  JiraCommentRequest.mk (JiraCommentElement.mk (some 1) "doc" [] none [] none)

/-- Modelled from the spec: `with_content` on a request is absent from the
snapshot; it replaces the children of the document root. -/
def JiraCommentRequest.with_content (req : JiraCommentRequest) (c : List JiraCommentElement) : JiraCommentRequest :=
  JiraCommentRequest.mk (req.body.with_content c)

/-! ## Pull requests and the comment builder (github.rs) -/

/-- Embedding of `GHRepo` (github.rs lines 70-73). -/
structure GHRepo where
  full_name : String
deriving DecidableEq, Repr

/-- Embedding of `GHPullRequestBase` (github.rs lines 65-68). -/
structure GHPullRequestBase where
  repo : GHRepo
deriving DecidableEq, Repr

/-- Embedding of `GHPullRequestOwner` (github.rs lines 75-78). -/
structure GHPullRequestOwner where
  login : String
deriving DecidableEq, Repr

/-- Embedding of `GHPullRequest` (github.rs lines 14-22). -/
structure GHPullRequest where
  base : GHPullRequestBase
  html_url : String
  title : String
  body : Option String
  created_at : String
  user : GHPullRequestOwner
deriving DecidableEq, Repr

/-- Embedding of `str::find` for a single character: the index of its first
occurrence, if any. -/
def findIdxOpt (p : Char → Bool) : List Char → Option Nat
  | [] => none
  | c :: cs => if p c then some 0 else (findIdxOpt p cs).map (fun n => n + 1)

/-- Embedding of `TakeUntil::take_until` (lib.rs lines 48-59): the text
before the first occurrence of `limit`, or the whole string when `limit`
does not occur. -/
def take_until (s : String) (limit : Char) : String :=
  match findIdxOpt (fun c => c = limit) s.data with
  | some idx => String.mk (s.data.take idx)
  | none => s

/-- Embedding of `str::trim`: remove leading and trailing whitespace. -/
def trimChars (l : List Char) : List Char :=
  ((l.dropWhile isSpaceCh).reverse.dropWhile isSpaceCh).reverse

def trimString (s : String) : String := String.mk (trimChars s.data)

/-! ## Error type (error.rs) -/

/-- Embedding of the `Error` enum (error.rs lines 5-21); the wrapped foreign
error types are reduced to their message strings. -/
inductive Error where
  | AutocommentError (msg : String)
  | SerdeJsonError (msg : String)
  | SerdeYamlError (msg : String)
  | ReqwestError (msg : String)
  | FsError (msg : String)
deriving DecidableEq, Repr

/-- Embedding of `GHPullRequest::build_jira_comment` (github.rs lines
25-62): fails when the description is absent; otherwise builds the
three-paragraph document via the builder helpers, in source order. -/
def build_jira_comment (pr : GHPullRequest) : Except Error JiraCommentRequest :=
  match pr.body with
  | none => Except.error (Error.AutocommentError ("Pull Request " ++ pr.html_url ++ " has an invalid description"))
  | some pr_body =>
    let jira_content : List JiraCommentElement := [
      (JiraCommentElement.new "paragraph").with_content [
        (JiraCommentElement.new "text").with_text ("Pull Request in " ++ pr.base.repo.full_name ++ ": "),
        ((JiraCommentElement.new "text").with_text pr.title).with_marks [
          (JiraCommentElement.new "link").with_attrs (JiraCommentAttrs.mk (some pr.html_url))]],
      (JiraCommentElement.new "paragraph").with_content [
        (JiraCommentElement.new "text").with_text (trimString (take_until pr_body '\n'))],
      (JiraCommentElement.new "paragraph").with_content [
        (JiraCommentElement.new "text").with_text ("Created at: " ++ pr.created_at)]]
    Except.ok (JiraCommentRequest.new.with_content jira_content)

/-! ## Collaborator models and the reconciliation pipeline (lib.rs)

The two collaborator traits are modelled as records of pure functions over
a fixed remote state, exactly what the in-repository mock implementations
(`MockGithubClient`, `MockJiraClient`) provide. -/

/-- Model of the `GithubClient` trait (github.rs lines 80-85). -/
structure GithubClientModel where
  get_pull_requests_for_repo : String → String → Except Error (List GHPullRequest)

/-- Model of the `JiraClient` trait (jira.rs lines 113-117). -/
structure JiraClientModel where
  get_domain : String
  get_jira_comments : String → Except Error JiraCommentResponse
  post_jira_comment : String → String → Except Error Unit

/-- Embedding of `process_pull_request` (lib.rs lines 19-46). -/
def process_pull_request (jira_client : JiraClientModel) (pr : GHPullRequest) : Except Error String :=
  match pr.body with
  | none => Except.error (Error.AutocommentError ("PR " ++ pr.html_url ++ " does not have a description!"))
  | some pr_body =>
    match parse_jira_ticket_number pr_body jira_client.get_domain with
    | some jira_id =>
      let ticket_url := "https://" ++ jira_client.get_domain ++ "/browse/" ++ jira_id
      match jira_client.get_jira_comments jira_id with
      | Except.error e => Except.error e
      | Except.ok comments =>
        if !(comments.contains_text pr.html_url) then
          match build_jira_comment pr with
          | Except.error e => Except.error e
          | Except.ok req =>
            match jira_client.post_jira_comment jira_id (serializeRequest req) with
            | Except.error e => Except.error e
            | Except.ok _ =>
              Except.ok ("Added Jira Comment on ticket " ++ ticket_url ++ " from " ++ pr.html_url ++ ".")
        else
          Except.ok ("Jira ticket " ++ ticket_url ++ " already has comment for " ++ pr.html_url ++ ".")
    | none => Except.ok ("PR " ++ pr.html_url ++ " does not contain a Jira ticket!")

/-- Embedding of `Iterator::collect` into `Result<Vec<_>, _>`: evaluate the
items left to right, stopping at the first error. -/
def collectResults (f : α → Except ε β) : List α → Except ε (List β)
  | [] => Except.ok []
  | x :: xs =>
    match f x with
    | Except.error e => Except.error e
    | Except.ok y =>
      match collectResults f xs with
      | Except.error e => Except.error e
      | Except.ok ys => Except.ok (y :: ys)

/-- Embedding of `sync_comments` (lib.rs lines 13-17). -/
def sync_comments (repo : String) (filters : String) (gh_client : GithubClientModel) (jira_client : JiraClientModel) : Except Error (List String) :=
  match gh_client.get_pull_requests_for_repo repo filters with
  | Except.error e => Except.error e
  | Except.ok prs => collectResults (process_pull_request jira_client) prs

/-- Modelled from the spec (section 4.2, paragraph 2): the first line of the
description — the text up to and excluding the first newline character, the
entire description when it contains no newline — with leading and trailing
whitespace trimmed. Stated in the spec's own words, to be compared with the
source's `take_until` followed by `trim`. -/
def firstLineSpec (b : String) : String :=
  trimString (String.mk (b.data.takeWhile (fun c => !(c = '\n'))))

/-! ## Helper lemmas about the extractor -/

lemma expectChar_eq_some {c : Char} {s r : List Char} (h : expectChar c s = some r) :
    s = c :: r := by
  cases s with
  | nil => simp [expectChar] at h
  | cons x xs =>
    simp only [expectChar] at h
    split at h
    · next hx => cases h; rw [hx]
    · simp at h

lemma takeSome_eq_some {p : Char → Bool} {s w r : List Char}
    (h : takeSome p s = some (w, r)) :
    s = w ++ r ∧ w ≠ [] ∧ w = s.takeWhile p := by
  unfold takeSome at h
  split at h
  · simp at h
  · next hne =>
    have h1 : (s.takeWhile p, s.dropWhile p) = (w, r) := by injection h
    have hw : s.takeWhile p = w := congrArg Prod.fst h1
    have hr : s.dropWhile p = r := congrArg Prod.snd h1
    refine ⟨?_, ?_, hw.symm⟩
    · rw [← hw, ← hr]; exact (List.takeWhile_append_dropWhile p s).symm
    · rw [← hw]; exact hne

lemma stripPfx_eq_some : ∀ {p s r : List Char}, stripPfx p s = some r → s = p ++ r := by
  intro p
  induction p with
  | nil => intro s r h; simp only [stripPfx] at h; cases h; rfl
  | cons q qs ih =>
    intro s r h
    cases s with
    | nil => simp [stripPfx] at h
    | cons c cs =>
      simp only [stripPfx] at h
      split at h
      · next hc => rw [hc, List.cons_append]; exact congrArg (q :: ·) (ih h)
      · simp at h

lemma matchTicketAt_eq_some {d s cap : List Char} (h : matchTicketAt d s = some cap) :
    ∃ w ds r5,
      s = '[' :: (w ++ '-' :: (ds ++ ']' :: '(' :: ((httpsList ++ d) ++ r5))) ∧
      w ≠ [] ∧ ds ≠ [] ∧ 2 ≤ (r5.takeWhile isNotSpace).length ∧ cap = w ++ '-' :: ds := by
  unfold matchTicketAt at h
  split at h
  · simp at h
  next rest h1 =>
  split at h
  · simp at h
  next w r1 h2 =>
  split at h
  · simp at h
  next r2 h3 =>
  split at h
  · simp at h
  next ds r3 h4 =>
  split at h
  · simp at h
  next r3a h5 =>
  split at h
  · simp at h
  next r4 h6 =>
  split at h
  · simp at h
  next r5 h7 =>
  split at h
  · next hrun =>
    refine ⟨w, ds, r5, ?_, ?_, ?_, ?_, ?_⟩
    · have e1 := expectChar_eq_some h1
      have e2 := (takeSome_eq_some h2).1
      have e3 := expectChar_eq_some h3
      have e4 := (takeSome_eq_some h4).1
      have e5 := expectChar_eq_some h5
      have e6 := expectChar_eq_some h6
      have e7 := stripPfx_eq_some h7
      rw [e1, e2, e3, e4, e5, e6, e7]
    · exact (takeSome_eq_some h2).2.1
    · exact (takeSome_eq_some h4).2.1
    · have hne : (r5.takeWhile isNotSpace).drop 1 ≠ [] := by
        intro hemp
        rw [hemp] at hrun
        simp at hrun
      have := List.drop_eq_nil_iff.not.mp hne
      omega
    · cases h; rfl
  · simp at h

lemma matchTicketAt_nil {d : List Char} : matchTicketAt d [] = none := by
  simp [matchTicketAt, expectChar]

lemma matchTicketAt_length {d s cap : List Char} (h : matchTicketAt d s = some cap) :
    16 + d.length ≤ s.length := by
  obtain ⟨w, ds, r5, hs, hw, hds, hrun, -⟩ := matchTicketAt_eq_some h
  have hw1 : 1 ≤ w.length := by
    cases w with
    | nil => exact absurd rfl hw
    | cons _ _ => simp
  have hds1 : 1 ≤ ds.length := by
    cases ds with
    | nil => exact absurd rfl hds
    | cons _ _ => simp
  have hr5 : 2 ≤ r5.length := by
    have := (List.takeWhile_prefix (l := r5) (p := isNotSpace)).length_le
    omega
  have hhttps : httpsList.length = 8 := rfl
  rw [hs]
  simp only [List.length_cons, List.length_append]
  omega




lemma findFirstTicket_eq_some_of {d s : List Char} (i : Nat) {cap : List Char}
    (hm : matchTicketAt d (s.drop i) = some cap)
    (hb : ∀ j, j < i → matchTicketAt d (s.drop j) = none) :
    findFirstTicket d s = some cap := by
  induction s generalizing i with
  | nil =>
    rw [List.drop_nil] at hm
    rw [matchTicketAt_nil] at hm
    exact absurd hm (by simp)
  | cons c cs ih =>
    cases i with
    | zero =>
      rw [List.drop_zero] at hm
      simp only [findFirstTicket, hm]
    | succ k =>
      have h0 : matchTicketAt d (c :: cs) = none := by
        have := hb 0 (Nat.succ_pos k)
        rwa [List.drop_zero] at this
      simp only [findFirstTicket, h0]
      refine ih k ?_ ?_
      · rwa [List.drop_succ_cons] at hm
      · intro j hj
        have := hb (j + 1) (Nat.succ_lt_succ hj)
        rwa [List.drop_succ_cons] at this

lemma findFirstTicket_eq_none_of {d s : List Char}
    (h : ∀ i, matchTicketAt d (s.drop i) = none) :
    findFirstTicket d s = none := by
  induction s with
  | nil => rfl
  | cons c cs ih =>
    have h0 := h 0
    rw [List.drop_zero] at h0
    simp only [findFirstTicket, h0]
    exact ih (fun i => by have := h (i + 1); rwa [List.drop_succ_cons] at this)

lemma findFirstTicket_none_of_short {d s : List Char}
    (h : s.length < 16 + d.length) :
    findFirstTicket d s = none := by
  induction s with
  | nil => rfl
  | cons c cs ih =>
    have h0 : matchTicketAt d (c :: cs) = none := by
      cases hm : matchTicketAt d (c :: cs) with
      | none => rfl
      | some cap =>
        have := matchTicketAt_length hm
        simp only [List.length_cons] at this h
        omega
    simp only [findFirstTicket, h0]
    exact ih (by simp only [List.length_cons] at h; omega)

lemma findFirstTicket_some_infix {d s cap : List Char}
    (h : findFirstTicket d s = some cap) :
    (httpsList ++ d) <:+: s := by
  induction s with
  | nil => exact absurd h (by simp [findFirstTicket])
  | cons c cs ih =>
    simp only [findFirstTicket] at h
    cases hm : matchTicketAt d (c :: cs) with
    | some cap2 =>
      obtain ⟨w, ds, r5, hs, -, -, -, -⟩ := matchTicketAt_eq_some hm
      refine ⟨'[' :: (w ++ '-' :: (ds ++ [']', '('])), r5, ?_⟩
      rw [hs]
      simp
    | none =>
      rw [hm] at h
      obtain ⟨u, v, huv⟩ := ih h
      exact ⟨c :: u, v, by rw [← huv]; rfl⟩

lemma containsSeq_iff {needle l : List Char} :
    containsSeq needle l = true ↔ needle <:+: l := by
  induction l with
  | nil =>
    simp only [containsSeq, decide_eq_true_eq]
    exact (List.infix_nil).symm
  | cons c cs ih =>
    simp only [containsSeq, Bool.or_eq_true, ih, List.isPrefixOf_iff_prefix]
    exact (List.infix_cons_iff).symm

lemma collectResults_ok_length {f : α → Except ε β} :
    ∀ {l : List α} {r : List β}, collectResults f l = Except.ok r → r.length = l.length := by
  intro l
  induction l with
  | nil => intro r h; cases h; rfl
  | cons x xs ih =>
    intro r h
    unfold collectResults at h
    split at h
    · simp at h
    · split at h
      · simp at h
      · next ys hys =>
        cases h
        simp only [List.length_cons]
        rw [ih hys]

lemma collectResults_ok_get {f : α → Except ε β} :
    ∀ {l : List α} {r : List β}, collectResults f l = Except.ok r →
      ∀ (i : Nat) (hi : i < l.length) (hi2 : i < r.length),
        f (l.get ⟨i, hi⟩) = Except.ok (r.get ⟨i, hi2⟩) := by
  intro l
  induction l with
  | nil => intro r h i hi hi2; exact absurd hi (by simp)
  | cons x xs ih =>
    intro r h i hi hi2
    unfold collectResults at h
    split at h
    · simp at h
    · next y hy =>
      split at h
      · simp at h
      · next ys hys =>
        cases h
        cases i with
        | zero => exact hy
        | succ k => exact ih hys k (Nat.lt_of_succ_lt_succ hi) (Nat.lt_of_succ_lt_succ hi2)

lemma collectResults_error_append {f : α → Except ε β} :
    ∀ (pre : List α) (x : α) (rest : List α) (e : ε),
      (∀ p ∈ pre, ∃ s, f p = Except.ok s) →
      f x = Except.error e →
      collectResults f (pre ++ x :: rest) = Except.error e := by
  intro pre
  induction pre with
  | nil =>
    intro x rest e _ hx
    simp only [List.nil_append, collectResults, hx]
  | cons p ps ih =>
    intro x rest e hpre hx
    obtain ⟨s, hs⟩ := hpre p (List.mem_cons_self p ps)
    have hrec := ih x rest e (fun q hq => hpre q (List.mem_cons_of_mem p hq)) hx
    have hrec2 : collectResults f (List.append ps (x :: rest)) = Except.error e := hrec
    simp only [List.cons_append, collectResults, hs, hrec, hrec2]

lemma findIdxOpt_take_eq_takeWhile (p : Char → Bool) :
    ∀ l : List Char,
      (match findIdxOpt p l with
       | some i => l.take i
       | none => l) = l.takeWhile (fun c => !(p c)) := by
  intro l
  induction l with
  | nil => rfl
  | cons c cs ih =>
    by_cases hc : p c = true
    · simp [findIdxOpt, hc, List.takeWhile]
    · have hc2 : p c = false := by
        cases hpc : p c
        · rfl
        · exact absurd hpc hc
      cases hfind : findIdxOpt p cs with
      | some i =>
        rw [hfind] at ih
        have ih2 : cs.take i = cs.takeWhile (fun c => !(p c)) := ih
        simp [findIdxOpt, hc2, hfind, List.takeWhile, List.take_succ_cons, ih2]
      | none =>
        rw [hfind] at ih
        have ih2 : cs = cs.takeWhile (fun c => !(p c)) := ih
        simp only [findIdxOpt, hc2, hfind, Option.map_none, List.takeWhile, Bool.not_false]
        exact congrArg (c :: ·) ih2

lemma take_until_eq (s : String) (limit : Char) :
    take_until s limit = String.mk (s.data.takeWhile (fun c => !(c = limit))) := by
  unfold take_until
  cases hfind : findIdxOpt (fun c => decide (c = limit)) s.data with
  | some i =>
    have h := findIdxOpt_take_eq_takeWhile (fun c => decide (c = limit)) s.data
    rw [hfind] at h
    have h2 : s.data.take i = s.data.takeWhile (fun c => !(decide (c = limit))) := h
    exact congrArg String.mk h2
  | none =>
    have h := findIdxOpt_take_eq_takeWhile (fun c => decide (c = limit)) s.data
    rw [hfind] at h
    have h2 : s.data = s.data.takeWhile (fun c => !(decide (c = limit))) := h
    exact congrArg String.mk h2

/-! ## Claim theorems -/

/-- C4: issue-key extraction is deterministic and first-match-wins: scanning
left to right over start positions, the extractor returns the capture of the
first position that matches (later matches are ignored), returns none when
no position matches, and on the spec's example yields "A-1". -/
theorem parse_jira_ticket_first_match :
    (∀ (domain s : String) (i : Nat) (cap : List Char),
        matchTicketAt domain.data (s.data.drop i) = some cap →
        (∀ j, j < i → matchTicketAt domain.data (s.data.drop j) = none) →
        parse_jira_ticket_number s domain = some (String.mk cap))
    ∧ (∀ (domain s : String),
        (∀ i, matchTicketAt domain.data (s.data.drop i) = none) →
        parse_jira_ticket_number s domain = none)
    ∧ parse_jira_ticket_number "test body [A-1](https://jira.domain/asdf)" "jira.domain" = some "A-1" := by
  refine ⟨?_, ?_, by decide⟩
  · intro domain s i cap hm hb
    unfold parse_jira_ticket_number
    rw [findFirstTicket_eq_some_of i hm hb]
    rfl
  · intro domain s h
    unfold parse_jira_ticket_number
    rw [findFirstTicket_eq_none_of h]
    rfl

/-- Witness for the first-match theorem: on the spec's example the match at
start position 10 is the one returned. -/
theorem parse_jira_ticket_first_match_witness :
    parse_jira_ticket_number "test body [A-1](https://jira.domain/asdf)" "jira.domain" =
      some (String.mk ['A', '-', '1']) :=
  parse_jira_ticket_first_match.1 "jira.domain" "test body [A-1](https://jira.domain/asdf)" 10
    ['A', '-', '1'] (by decide) (by decide)

/-- C5 counterexample: extraction is not scoped by host equality. With
configured domain `jira.domain`, a validly-shaped key linked to the
different host `jira.domain.evil.com` (and to `jira.domainx`) is still
extracted, because the pattern only requires the link target to start with
the literal `https://` plus the configured domain, with any non-space
characters allowed after it. -/
theorem parse_domain_prefix_cex :
    parse_jira_ticket_number "test body [A-1](https://jira.domain.evil.com/x)" "jira.domain"
      = some "A-1"
    ∧ parse_jira_ticket_number "test body [A-1](https://jira.domainx/x)" "jira.domain"
      = some "A-1" :=
  ⟨by decide, by decide⟩

/-- C5 (amended): extraction is scoped by a literal target prefix, not by
host equality. Empty text yields none; whenever the literal text `https://`
followed by the configured domain does not occur in the description,
extraction yields none — so a key linked to a host that does not begin with
the configured domain yields none — and the dots of the domain are literal
characters, not wildcards: `jiraxdomain` does not satisfy a `jira.domain`
configuration. But a link target whose host merely extends the configured
domain string, such as `https://jira.domain.evil.com/x` under domain
`jira.domain`, is accepted. -/
theorem parse_domain_scoped :
    (∀ domain : String, parse_jira_ticket_number "" domain = none)
    ∧ (∀ (domain s : String), ¬ (("https://" ++ domain).data <:+: s.data) →
        parse_jira_ticket_number s domain = none)
    ∧ parse_jira_ticket_number "test body [A-1](https://other.domain/asdf)" "jira.domain" = none
    ∧ parse_jira_ticket_number "test body [A-1](https://jiraxdomain/asdf)" "jira.domain" = none
    ∧ parse_jira_ticket_number "test body [A-1](https://jira.domain.evil.com/x)" "jira.domain"
      = some "A-1" := by
  refine ⟨?_, ?_, by decide, by decide, by decide⟩
  · intro domain; rfl
  · intro domain s hninf
    cases hp : parse_jira_ticket_number s domain with
    | none => rfl
    | some k =>
      exfalso
      apply hninf
      unfold parse_jira_ticket_number at hp
      cases hf : findFirstTicket domain.data s.data with
      | none => rw [hf] at hp; simp at hp
      | some cap =>
        have hinf := findFirstTicket_some_infix hf
        have hdata : ("https://" ++ domain).data = httpsList ++ domain.data := by
          rw [String.data_append]; rfl
        rw [hdata]
        exact hinf

/-- Witness for the domain-scoping theorem: the configured-domain literal
does not occur in a description linking a different host. -/
theorem parse_domain_scoped_witness :
    parse_jira_ticket_number "test body [A-1](https://elsewhere.example/x)" "jira.domain" = none :=
  parse_domain_scoped.2.1 "jira.domain" "test body [A-1](https://elsewhere.example/x)" (by decide)

/-- C6: duplicate detection returns true exactly when some existing
comment's rendered text contains the needle URL as a case-sensitive exact
substring; with zero existing comments it is false for every needle; on the
spec's example comment list it is true for the first URL and false for a
second one. -/
theorem contains_text_spec :
    (∀ (total : Int) (needle : String),
        JiraCommentResponse.contains_text (JiraCommentResponse.mk total []) needle = false)
    ∧ (∀ (resp : JiraCommentResponse) (needle : String),
        resp.contains_text needle = true ↔
          ∃ c, c ∈ resp.comments ∧ needle.data <:+: c.rendered_body.data)
    ∧ JiraCommentResponse.contains_text
        (JiraCommentResponse.mk 2 [JiraComment.mk "asdfageta https://url/org/repo/1 asdadf",
          JiraComment.mk "aeradadf asafsd asd"]) "https://url/org/repo/1" = true
    ∧ JiraCommentResponse.contains_text
        (JiraCommentResponse.mk 2 [JiraComment.mk "asdfageta https://url/org/repo/1 asdadf",
          JiraComment.mk "aeradadf asafsd asd"]) "https://url/org/repo/2" = false := by
  refine ⟨?_, ?_, by decide, by decide⟩
  · intro total needle; rfl
  · intro resp needle
    unfold JiraCommentResponse.contains_text
    rw [List.any_eq_true]
    constructor
    · rintro ⟨c, hc, hcs⟩; exact ⟨c, hc, containsSeq_iff.mp hcs⟩
    · rintro ⟨c, hc, hinf⟩; exact ⟨c, hc, containsSeq_iff.mpr hinf⟩

/-- C9: duplicate detection never reads the response's total count — two
responses with equal comment lists but different totals agree on every
needle. -/
theorem contains_text_ignores_total :
    ∀ (t1 t2 : Int) (cs : List JiraComment) (needle : String), t1 ≠ t2 →
      JiraCommentResponse.contains_text (JiraCommentResponse.mk t1 cs) needle =
        JiraCommentResponse.contains_text (JiraCommentResponse.mk t2 cs) needle := by
  intro t1 t2 cs needle _
  rfl

/-- Witness for the total-independence theorem at totals 0 and 1. -/
theorem contains_text_ignores_total_witness :
    JiraCommentResponse.contains_text (JiraCommentResponse.mk 0 [JiraComment.mk "a"]) "a" =
      JiraCommentResponse.contains_text (JiraCommentResponse.mk 1 [JiraComment.mk "a"]) "a" :=
  contains_text_ignores_total 0 1 [JiraComment.mk "a"] "a" (by decide)

/-- C10: when the only issue-key link's target is exactly `https://` plus
the tracker domain with nothing before the closing parenthesis, extraction
yields none: the pattern demands at least one further non-space character
after the domain inside the link target. -/
theorem parse_bare_domain_link_none :
    ∀ domain : String, validDomain domain = true →
      parse_jira_ticket_number ("[A-1](https://" ++ domain ++ ")") domain = none := by
  intro domain _
  unfold parse_jira_ticket_number
  have hlen : ("[A-1](https://" ++ domain ++ ")").data.length < 16 + domain.data.length := by
    have h1 : ("[A-1](https://" ++ domain ++ ")").data
        = ("[A-1](https://".data ++ domain.data) ++ ")".data := by
      rw [String.data_append, String.data_append]
    rw [h1, List.length_append, List.length_append]
    have h14 : ("[A-1](https://").data.length = 14 := by decide
    have h1r : (")").data.length = 1 := by decide
    omega
  rw [findFirstTicket_none_of_short hlen]
  rfl

/-- Witness for the bare-domain-link theorem at the example domain. -/
theorem parse_bare_domain_link_none_witness :
    parse_jira_ticket_number "[A-1](https://jira.domain)" "jira.domain" = none :=
  parse_bare_domain_link_none "jira.domain" (by decide)

/-- C1 counterexample: with a first pull request whose description is
absent, the entry point does not record a missing-description result line
and continue — it aborts the whole run with an error, although the second
pull request on its own would have produced a result line; so no full
result sequence is returned. -/
theorem sync_missing_description_cex :
    sync_comments "org/repo" ""
        (GithubClientModel.mk (fun _ _ => Except.ok
          [GHPullRequest.mk (GHPullRequestBase.mk (GHRepo.mk "org/repo")) "https://url/org/repo/1"
            "test title" none "datetime" (GHPullRequestOwner.mk "me"),
           GHPullRequest.mk (GHPullRequestBase.mk (GHRepo.mk "org/repo")) "https://url/org/repo/2"
            "test title" (some "test body") "datetime" (GHPullRequestOwner.mk "me")]))
        (JiraClientModel.mk "jira.domain" (fun _ => Except.ok (JiraCommentResponse.mk 0 []))
          (fun _ _ => Except.ok ()))
      = Except.error (Error.AutocommentError "PR https://url/org/repo/1 does not have a description!")
    ∧ process_pull_request
        (JiraClientModel.mk "jira.domain" (fun _ => Except.ok (JiraCommentResponse.mk 0 []))
          (fun _ _ => Except.ok ()))
        (GHPullRequest.mk (GHPullRequestBase.mk (GHRepo.mk "org/repo")) "https://url/org/repo/2"
          "test title" (some "test body") "datetime" (GHPullRequestOwner.mk "me"))
      = Except.ok "PR https://url/org/repo/2 does not contain a Jira ticket!" :=
  ⟨rfl, rfl⟩

/-- C1 (amended): for every pull request whose description is absent,
processing that item yields a missing-description error naming the pull
request's URL, whatever the issue-tracker client is (so no tracker call can
influence the item); once the preceding pull requests process successfully,
this error aborts the whole run — the entry point returns the error, not a
result sequence. -/
theorem process_missing_description :
    (∀ (jc : JiraClientModel) (pr : GHPullRequest), pr.body = none →
        process_pull_request jc pr =
          Except.error (Error.AutocommentError ("PR " ++ pr.html_url ++ " does not have a description!")))
    ∧ (∀ (repo filters : String) (gh : GithubClientModel) (jc : JiraClientModel)
        (pre : List GHPullRequest) (pr : GHPullRequest) (rest : List GHPullRequest),
        gh.get_pull_requests_for_repo repo filters = Except.ok (pre ++ pr :: rest) →
        pr.body = none →
        (∀ p ∈ pre, ∃ s, process_pull_request jc p = Except.ok s) →
        sync_comments repo filters gh jc =
          Except.error (Error.AutocommentError ("PR " ++ pr.html_url ++ " does not have a description!"))) := by
  have hproc : ∀ (jc : JiraClientModel) (pr : GHPullRequest), pr.body = none →
      process_pull_request jc pr =
        Except.error (Error.AutocommentError ("PR " ++ pr.html_url ++ " does not have a description!")) := by
    intro jc pr h
    simp only [process_pull_request, h]
  refine ⟨hproc, ?_⟩
  intro repo filters gh jc pre pr rest hgh hbody hpre
  unfold sync_comments
  rw [hgh]
  exact collectResults_error_append pre pr rest _ hpre (hproc jc pr hbody)

/-- Witness for the amended missing-description theorem at a concrete pull
request without a description. -/
theorem process_missing_description_witness :
    process_pull_request
        (JiraClientModel.mk "d" (fun _ => Except.ok (JiraCommentResponse.mk 0 []))
          (fun _ _ => Except.ok ()))
        (GHPullRequest.mk (GHPullRequestBase.mk (GHRepo.mk "r")) "u" "t" none "c"
          (GHPullRequestOwner.mk "l"))
      = Except.error (Error.AutocommentError ("PR " ++ "u" ++ " does not have a description!")) :=
  process_missing_description.1 _ _ rfl

/-- C3: the entry point returns either the full sequence of result lines —
exactly one per pull request, in the order the source returned them — or a
single error: any processing failure (in particular a transport failure
while fetching comments or posting) aborts the run with that error, as does
a failure of the pull-request fetch itself; a partial sequence is never
returned. -/
theorem sync_comments_full_or_error :
    (∀ (repo filters : String) (gh : GithubClientModel) (jc : JiraClientModel)
        (prs : List GHPullRequest) (res : List String),
        gh.get_pull_requests_for_repo repo filters = Except.ok prs →
        sync_comments repo filters gh jc = Except.ok res →
        res.length = prs.length ∧
          ∀ (i : Nat) (hi : i < prs.length) (hi2 : i < res.length),
            process_pull_request jc (prs.get ⟨i, hi⟩) = Except.ok (res.get ⟨i, hi2⟩))
    ∧ (∀ (repo filters : String) (gh : GithubClientModel) (jc : JiraClientModel)
        (pre : List GHPullRequest) (pr : GHPullRequest) (rest : List GHPullRequest) (e : Error),
        gh.get_pull_requests_for_repo repo filters = Except.ok (pre ++ pr :: rest) →
        (∀ p ∈ pre, ∃ s, process_pull_request jc p = Except.ok s) →
        process_pull_request jc pr = Except.error e →
        sync_comments repo filters gh jc = Except.error e)
    ∧ (∀ (repo filters : String) (gh : GithubClientModel) (jc : JiraClientModel) (e : Error),
        gh.get_pull_requests_for_repo repo filters = Except.error e →
        sync_comments repo filters gh jc = Except.error e) := by
  refine ⟨?_, ?_, ?_⟩
  · intro repo filters gh jc prs res hgh hsync
    unfold sync_comments at hsync
    rw [hgh] at hsync
    have hsync2 : collectResults (process_pull_request jc) prs = Except.ok res := hsync
    exact ⟨collectResults_ok_length hsync2, fun i hi hi2 => collectResults_ok_get hsync2 i hi hi2⟩
  · intro repo filters gh jc pre pr rest e hgh hpre hpr
    unfold sync_comments
    rw [hgh]
    exact collectResults_error_append pre pr rest e hpre hpr
  · intro repo filters gh jc e hgh
    unfold sync_comments
    rw [hgh]

/-- Witness for the all-or-nothing theorem: a failing pull-request fetch is
returned as the single error. -/
theorem sync_comments_full_or_error_witness :
    sync_comments "org/repo" ""
        (GithubClientModel.mk (fun _ _ => Except.error (Error.ReqwestError "timeout")))
        (JiraClientModel.mk "d" (fun _ => Except.ok (JiraCommentResponse.mk 0 []))
          (fun _ _ => Except.ok ()))
      = Except.error (Error.ReqwestError "timeout") :=
  sync_comments_full_or_error.2.2 "org/repo" "" _ _ _ rfl

lemma trim_take_until_eq_firstLineSpec (b : String) :
    trimString (take_until b '\n') = firstLineSpec b := by
  rw [take_until_eq]
  rfl

/-- C7: for every pull request with a present description, the built
document is a version-1 root with three paragraphs whose second paragraph
is a single text-run holding exactly the description's first line — the
text before the first newline, or all of it when there is none — trimmed of
surrounding whitespace (stated through `firstLineSpec`, which follows the
spec's wording). -/
theorem build_second_paragraph :
    ∀ (pr : GHPullRequest) (b : String), pr.body = some b →
      ∃ p1 p3 : JiraCommentElement,
        build_jira_comment pr = Except.ok (JiraCommentRequest.mk (JiraCommentElement.mk (some 1) "doc"
          [p1,
           JiraCommentElement.mk none "paragraph"
             [JiraCommentElement.mk none "text" [] (some (firstLineSpec b)) [] none] none [] none,
           p3] none [] none)) := by
  intro pr b h
  refine ⟨JiraCommentElement.mk none "paragraph"
      [JiraCommentElement.mk none "text" []
        (some ("Pull Request in " ++ pr.base.repo.full_name ++ ": ")) [] none,
       JiraCommentElement.mk none "text" [] (some pr.title)
        [JiraCommentElement.mk none "link" [] none []
          (some (JiraCommentAttrs.mk (some pr.html_url)))] none]
      none [] none,
    JiraCommentElement.mk none "paragraph"
      [JiraCommentElement.mk none "text" [] (some ("Created at: " ++ pr.created_at)) [] none]
      none [] none, ?_⟩
  simp only [build_jira_comment, h]
  rw [← trim_take_until_eq_firstLineSpec b]
  rfl

/-- Witness for the second-paragraph theorem at the spec's example pull
request, whose two-line description reduces to its first line. -/
theorem build_second_paragraph_witness :
    ∃ p1 p3 : JiraCommentElement,
      build_jira_comment (GHPullRequest.mk (GHPullRequestBase.mk (GHRepo.mk "test"))
          "https://url/org/repo" "test title" (some "test body\nwith two lines") "datetime"
          (GHPullRequestOwner.mk "me"))
        = Except.ok (JiraCommentRequest.mk (JiraCommentElement.mk (some 1) "doc"
          [p1,
           JiraCommentElement.mk none "paragraph"
             [JiraCommentElement.mk none "text" []
               (some (firstLineSpec "test body\nwith two lines")) [] none] none [] none,
           p3] none [] none)) :=
  build_second_paragraph _ "test body\nwith two lines" rfl

/-- C8: the pipeline is deterministic — two runs with the same repository,
filter, pull-request list and comment snapshots (collaborators modelled as
pure functions over a fixed remote state that agree observation by
observation) return identical result sequences. -/
theorem sync_comments_deterministic :
    ∀ (repo filters : String) (gh gh2 : GithubClientModel) (jc jc2 : JiraClientModel),
      (∀ r f, gh.get_pull_requests_for_repo r f = gh2.get_pull_requests_for_repo r f) →
      jc.get_domain = jc2.get_domain →
      (∀ t, jc.get_jira_comments t = jc2.get_jira_comments t) →
      (∀ t s, jc.post_jira_comment t s = jc2.post_jira_comment t s) →
      sync_comments repo filters gh jc = sync_comments repo filters gh2 jc2 := by
  intro repo filters gh gh2 jc jc2 hgh hdom hget hpost
  have hproc : ∀ pr, process_pull_request jc pr = process_pull_request jc2 pr := by
    intro pr
    simp only [process_pull_request, hdom, hget, hpost]
  unfold sync_comments
  rw [hgh repo filters]
  cases hg : gh2.get_pull_requests_for_repo repo filters with
  | error e => rfl
  | ok prs =>
    show collectResults (process_pull_request jc) prs = collectResults (process_pull_request jc2) prs
    rw [funext hproc]

/-- Witness for the determinism theorem: two identically-behaving client
pairs give the same answer. -/
theorem sync_comments_deterministic_witness :
    sync_comments "org/repo" "" (GithubClientModel.mk (fun _ _ => Except.ok []))
        (JiraClientModel.mk "d" (fun _ => Except.ok (JiraCommentResponse.mk 0 []))
          (fun _ _ => Except.ok ()))
      = sync_comments "org/repo" "" (GithubClientModel.mk (fun _ _ => Except.ok []))
        (JiraClientModel.mk "d" (fun _ => Except.ok (JiraCommentResponse.mk 0 []))
          (fun _ _ => Except.ok ())) :=
  sync_comments_deterministic "org/repo" "" _ _ _ _ (fun _ _ => rfl) rfl (fun _ => rfl)
    (fun _ _ => rfl)

set_option maxRecDepth 4000 in
/-- C2: serializing the comment document built from the spec's example pull
request yields exactly the expected JSON object: a `body` holding a
version-1 document root with the three paragraphs — repository context plus
linked title, first description line, created-at line — with no version
field on non-root nodes and no empty marks or content arrays and no null
placeholders. -/
theorem build_jira_comment_round_trip :
    (build_jira_comment (GHPullRequest.mk (GHPullRequestBase.mk (GHRepo.mk "test"))
        "https://url/org/repo" "test title" (some "test body\nwith two lines") "datetime"
        (GHPullRequestOwner.mk "me"))).map serializeRequest
      = Except.ok "\x7b\"body\":\x7b\"version\":1,\"type\":\"doc\",\"content\":[\x7b\"type\":\"paragraph\",\"content\":[\x7b\"type\":\"text\",\"text\":\"Pull Request in test: \"\x7d,\x7b\"type\":\"text\",\"text\":\"test title\",\"marks\":[\x7b\"type\":\"link\",\"attrs\":\x7b\"href\":\"https://url/org/repo\"\x7d\x7d]\x7d]\x7d,\x7b\"type\":\"paragraph\",\"content\":[\x7b\"type\":\"text\",\"text\":\"test body\"\x7d]\x7d,\x7b\"type\":\"paragraph\",\"content\":[\x7b\"type\":\"text\",\"text\":\"Created at: datetime\"\x7d]\x7d]\x7d\x7d" := rfl
